import Mathlib

/-!
Shallow embedding of the expression-evaluator core of the `constcodegen`
repository (files `src/value.rs`, `src/expr.rs`, `src/functions.rs`) and
proofs about it.

Modelling conventions:
* Rust `i128` is modelled as `Int` with explicit range checks against
  `i128Min`/`i128Max` where the source uses checked arithmetic or
  `from_str_radix`.
* Rust `f64` is modelled as `ℚ` (exact rational arithmetic).  IEEE rounding
  is not modelled; every concrete float computation appearing in a theorem
  below is exact in IEEE double precision as well (small integers and halves),
  so the modelled results coincide with the program's.  The two casts the
  source performs on `f64` range bounds are embedded with their actual IEEE
  values: `i128::MIN as f64` is exactly `-2^127`, and `i128::MAX as f64`
  rounds to nearest, giving exactly `2^127`.
* Rust panics (`panic!`, `unwrap`/`expect`, `unimplemented!`, failed
  `assert!`, out-of-bounds indexing) are modelled as the distinguished
  outcome `EResult.panicked`, kept separate from the program's own error
  channel `EResult.err`.
* Strings are modelled as `List Char`; the scanner's byte offsets become
  character offsets (identical for the ASCII inputs considered here).
* Rust `HashMap` (`Context`, `Functions`) is modelled as an association
  list looked up with `List.lookup`; only lookup behaviour matters here.
* The diagnostic *text* inside `InvalidArgument`/`UnknownSymbol` etc. is
  carried as a `String` built by a simplified renderer (`primDebug`): the
  claims under study depend on the error kind and span, never on Rust's
  exact `format!`/`Debug` output, which is not reproduced.
-/

namespace ConstCodegen

/-- `Location` from `src/expr.rs`: the whole original text plus a start
offset and length. -/
structure Location where
  string : List Char
  start : Nat
  len : Nat
deriving DecidableEq, Repr

/-- `EvalErrorMessage` from `src/expr.rs`. -/
inductive EvalErrorMessage where
  | InvalidChar (c : Char)
  | EmptyExpression
  | UnmatchedOpen
  | UnmatchedClose
  | UnexpectedToken
  | CallNonSymbol
  | UnknownSymbol (sym : String)
  | UnknownFunction (name : String)
  | ArgumentCount
  | InvalidArgument (msg : String)
  | Overflow
deriving DecidableEq, Repr

/-- `EvalError` from `src/expr.rs`. -/
structure EvalError where
  location : Location
  message : EvalErrorMessage
deriving DecidableEq, Repr

/-- `Location::error_here`. -/
def Location.error_here (l : Location) (message : EvalErrorMessage) : EvalError :=
  { location := l, message := message }

/-- Outcome of running a piece of the Rust program: a value, a returned
`EvalError`, or a panic (`unwrap`, `expect`, `assert!`, `unimplemented!`,
out-of-bounds indexing).  The panic outcome is not part of the program's
error channel; it models process abort. -/
inductive EResult (α : Type) where
  | ok (a : α)
  | err (e : EvalError)
  | panicked
deriving DecidableEq, Repr

def EResult.bind {α β : Type} : EResult α → (α → EResult β) → EResult β
  | .ok a, f => f a
  | .err e, _ => .err e
  | .panicked, _ => .panicked

def EResult.map {α β : Type} (f : α → β) : EResult α → EResult β
  | .ok a => .ok (f a)
  | .err e => .err e
  | .panicked => .panicked

/-- `i128::MIN` = `-2^127`. -/
def i128Min : Int := -(2 ^ 127)

/-- `i128::MAX` = `2^127 - 1`. -/
def i128Max : Int := 2 ^ 127 - 1

/-- Whether an integer fits in `i128`. -/
def inI128 (v : Int) : Prop := i128Min ≤ v ∧ v ≤ i128Max

instance (v : Int) : Decidable (inI128 v) := by unfold inI128; infer_instance

/-- `std::i128::MIN as f64`: `-2^127` is a power of two, the cast is exact. -/
def i128MinAsF64 : ℚ := -(2 ^ 127)

/-- `std::i128::MAX as f64`: `2^127 - 1` is not representable in `f64`
(the doubles just below `2^127` are `2^74` apart), and the cast rounds to
nearest, giving exactly `2^127`. -/
def i128MaxAsF64 : ℚ := 2 ^ 127

/-- Truncation toward zero of a rational, the semantics of `f64::trunc`. -/
def ratTrunc (f : ℚ) : Int := if 0 ≤ f then ⌊f⌋ else ⌈f⌉

/-- The Rust cast `f as i128` for a finite float: truncate toward zero,
saturating at the `i128` range boundaries. -/
def f64AsI128 (f : ℚ) : Int :=
  if f < (i128Min : ℚ) then i128Min
  else if (i128Max : ℚ) < f then i128Max
  else ratTrunc f

/-- `int_float_eq` from `src/value.rs`:
```rust
fn int_float_eq(i: i128, f: f64) -> bool {
    if f.trunc() == f {
        if std::i128::MIN as f64 <= f && f <= std::i128::MAX as f64 {
            (f as i128) == i
        } else { false }
    } else { false }
}
``` -/
def int_float_eq (i : Int) (f : ℚ) : Bool :=
  if (ratTrunc f : ℚ) = f then
    if i128MinAsF64 ≤ f ∧ f ≤ i128MaxAsF64 then
      f64AsI128 f == i
    else false
  else false

/-- `Primitive` from `src/value.rs`.  `Integer` carries `i128` (here `Int`),
`Float` carries `f64` (here `ℚ`, exact). -/
inductive Primitive where
  | Boolean (b : Bool)
  | Integer (i : Int)
  | Float (f : ℚ)
deriving DecidableEq, Repr

/-- Simplified stand-in for Rust's `{:?}` rendering of a `Primitive`, used
only to fill diagnostic message strings whose exact text no claim depends
on. -/
def primDebug : Primitive → String
  | .Boolean b => if b then "Boolean(true)" else "Boolean(false)"
  | .Integer i => "Integer(" ++ toString i ++ ")"
  | .Float _ => "Float(..)"

/-- The hand-written `impl PartialEq for Primitive` from `src/value.rs`:
same-kind values compare componentwise, `Integer`/`Float` pairs go through
`int_float_eq`, everything else is unequal. -/
def primEq : Primitive → Primitive → Bool
  | .Boolean s, .Boolean o => s == o
  | .Boolean _, _ => false
  | .Integer s, .Integer o => s == o
  | .Integer s, .Float o => int_float_eq s o
  | .Integer _, _ => false
  | .Float s, .Integer o => int_float_eq o s
  | .Float s, .Float o => s == o
  | .Float _, _ => false

/-- `i128::checked_add`: the mathematical sum when it fits `i128`. -/
def checkedAdd (a b : Int) : Option Int :=
  if inI128 (a + b) then some (a + b) else none

/-- `i128::checked_mul`: the mathematical product when it fits `i128`. -/
def checkedMul (a b : Int) : Option Int :=
  if inI128 (a * b) then some (a * b) else none

/-- The cast `a as f64` for `a : i128`, modelled exactly (IEEE rounding for
`|a| > 2^53` is not modelled; all uses below are exact). -/
def intToF64 (a : Int) : ℚ := (a : ℚ)

/-- `Primitive::not` from `src/value.rs`. -/
def Primitive.not : Primitive → Except EvalErrorMessage Primitive
  | .Boolean a => .ok (.Boolean !a)
  | a => .error (.InvalidArgument ("Cannot (not " ++ primDebug a ++ ")"))

/-- `Primitive::and` from `src/value.rs`. -/
def Primitive.and : Primitive → Primitive → Except EvalErrorMessage Primitive
  | .Boolean a, .Boolean b => .ok (.Boolean (a && b))
  | a, b =>
    .error (.InvalidArgument ("Cannot (and " ++ primDebug a ++ " " ++ primDebug b ++ ")"))

/-- `Primitive::or` from `src/value.rs`. -/
def Primitive.or : Primitive → Primitive → Except EvalErrorMessage Primitive
  | .Boolean a, .Boolean b => .ok (.Boolean (a || b))
  | a, b =>
    .error (.InvalidArgument ("Cannot (or " ++ primDebug a ++ " " ++ primDebug b ++ ")"))

/-- `Primitive::add` from `src/value.rs`: checked integer addition,
int/float coercion, float addition. -/
def Primitive.add : Primitive → Primitive → Except EvalErrorMessage Primitive
  | .Integer a, .Integer b =>
    match checkedAdd a b with
    | some c => .ok (.Integer c)
    | none => .error .Overflow
  | .Integer a, .Float b => .ok (.Float (intToF64 a + b))
  | .Float b, .Integer a => .ok (.Float (intToF64 a + b))
  | .Float a, .Float b => .ok (.Float (a + b))
  | a, b =>
    .error (.InvalidArgument ("Cannot (add " ++ primDebug a ++ " " ++ primDebug b ++ ")"))

/-- `Primitive::mul` from `src/value.rs`.  NOTE: the source's
`(Float(a), Float(b))` arm is `Float(a + b)` — it adds the two floats
(src/value.rs line 105); this embedding reproduces that faithfully. -/
def Primitive.mul : Primitive → Primitive → Except EvalErrorMessage Primitive
  | .Integer a, .Integer b =>
    match checkedMul a b with
    | some c => .ok (.Integer c)
    | none => .error .Overflow
  | .Integer a, .Float b => .ok (.Float (intToF64 a * b))
  | .Float b, .Integer a => .ok (.Float (intToF64 a * b))
  | .Float a, .Float b => .ok (.Float (a + b))
  | a, b =>
    .error (.InvalidArgument ("Cannot (mul " ++ primDebug a ++ " " ++ primDebug b ++ ")"))

/-- `Context` from `src/value.rs` (`HashMap<String, Primitive>`), as an
association list; `ctx.get` is `List.lookup`. -/
abbrev Context : Type := List (String × Primitive)

def Context.get (ctx : Context) (key : String) : Option Primitive :=
  List.lookup key ctx

/-! ### Tokens and the scanner (`scan` in `src/expr.rs`)

The five anchored regular expressions of `scan` are hand-translated to
maximal-munch matchers over `List Char`.  Each matcher returns the matched
prefix (the regex engine's leftmost match at the current offset), or `none`.
Greedy quantifier backtracking reduces, for these patterns, to "take the
maximal run, then drop trailing characters until the final character class
is satisfied" — for `[0-9_]*[0-9]` that is the maximal digit/underscore run
with trailing underscores removed. -/

/-- A character of the class `[0-9a-f]` (lowercase only, as in `RE_RDX`). -/
def isLowerHex (c : Char) : Bool := c.isDigit || ('a' ≤ c && c ≤ 'f')

/-- A character of the class `[a-zA-Z_]` (`RE_SYM` start). -/
def isIdentStart (c : Char) : Bool := c.isAlpha || c == '_'

/-- A character of the class `[a-zA-Z0-9_]` (`RE_SYM` continuation). -/
def isIdentCont (c : Char) : Bool := c.isAlphanum || c == '_'

/-- A character of the class `[-+]`. -/
def isSign (c : Char) : Bool := c == '+' || c == '-'

/-- Split an optional leading sign (`[-+]?`) off a character list. -/
def splitSign : List Char → List Char × List Char
  | [] => ([], [])
  | c :: rest => if isSign c then ([c], rest) else ([], c :: rest)

/-- Drop trailing underscores: the backtracking of `X*Y` where the run was
taken maximally and `Y` excludes `_` while `X` includes it. -/
def stripTrailingUnderscores (run : List Char) : List Char :=
  (run.reverse.dropWhile (fun c => c == '_')).reverse

/-- `RE_FLT = ^[-+]?[0-9]+\.[0-9]+([eE][-+]?[0-9]+)?`: the optional
exponent part, matched greedily (empty when it cannot complete). -/
def matchExp : List Char → List Char
  | [] => []
  | e :: rest =>
    if e == 'e' || e == 'E' then
      let (sgn, r) := splitSign rest
      let d := r.takeWhile Char.isDigit
      if d.isEmpty then [] else e :: (sgn ++ d)
    else []

/-- The full `RE_FLT` match at the start of `s`, if any. -/
def matchFlt (s : List Char) : Option (List Char) :=
  let (sgn, s1) := splitSign s
  let d1 := s1.takeWhile Char.isDigit
  if d1.isEmpty then none
  else
    match s1.drop d1.length with
    | '.' :: r2 =>
      let d2 := r2.takeWhile Char.isDigit
      if d2.isEmpty then none
      else some (sgn ++ d1 ++ '.' :: (d2 ++ matchExp (r2.drop d2.length)))
    | _ => none

/-- `RE_RDX = ^0(b|o|x)([0-9a-f_]*[0-9a-f])`: returns
(whole match, radix character, capture group 2). -/
def matchRdx (s : List Char) : Option (List Char × Char × List Char) :=
  match s with
  | c0 :: s1 =>
    if c0 == '0' then
      match s1 with
      | c :: rest =>
        if c == 'b' || c == 'o' || c == 'x' then
          let run := rest.takeWhile (fun ch => isLowerHex ch || ch == '_')
          let digits := stripTrailingUnderscores run
          if digits.isEmpty then none else some ('0' :: c :: digits, c, digits)
        else none
      | [] => none
    else none
  | [] => none

/-- `RE_INT = ^[-+]?[0-9_]*[0-9]`. -/
def matchInt (s : List Char) : Option (List Char) :=
  let (sgn, s1) := splitSign s
  let run := s1.takeWhile (fun c => c.isDigit || c == '_')
  let digits := stripTrailingUnderscores run
  if digits.isEmpty then none else some (sgn ++ digits)

/-- `RE_BLN = ^(true|false)` (no word boundary: a prefix match). -/
def matchBln (s : List Char) : Option (List Char) :=
  if ("true".toList).isPrefixOf s then some "true".toList
  else if ("false".toList).isPrefixOf s then some "false".toList
  else none

/-- `RE_SYM = ^[a-zA-Z_][a-zA-Z0-9_]*`. -/
def matchSym (s : List Char) : Option (List Char) :=
  match s with
  | [] => none
  | c :: rest => if isIdentStart c then some (c :: rest.takeWhile isIdentCont) else none

/-- The numeric value of an ASCII digit character for `from_str_radix`
(`0-9`, `a-z`, `A-Z`). -/
def digitValue (c : Char) : Option Nat :=
  if c.isDigit then some (c.toNat - '0'.toNat)
  else if 'a' ≤ c && c ≤ 'z' then some (c.toNat - 'a'.toNat + 10)
  else if 'A' ≤ c && c ≤ 'Z' then some (c.toNat - 'A'.toNat + 10)
  else none

/-- Accumulate digit characters in the given radix; `none` on any character
that is not a digit of that radix (in particular `_`). -/
def digitsAccum (radix : Nat) : List Char → Nat → Option Nat
  | [], acc => some acc
  | c :: rest, acc =>
    match digitValue c with
    | some d => if d < radix then digitsAccum radix rest (acc * radix + d) else none
    | none => none

/-- `i128::from_str_radix`: optional sign, one or more radix digits
(underscores are NOT accepted), result within the `i128` range (Rust's
checked accumulation overflows exactly when the final value is out of
range, since the magnitude grows monotonically). -/
def fromStrRadix (s : List Char) (radix : Nat) : Option Int :=
  let (neg, ds) :=
    match s with
    | '+' :: rest => (false, rest)
    | '-' :: rest => (true, rest)
    | other => (false, other)
  if ds.isEmpty then none
  else
    match digitsAccum radix ds 0 with
    | none => none
    | some n =>
      let v : Int := if neg then -(n : Int) else (n : Int)
      if inI128 v then some v else none

/-- Exact-rational model of `str::parse::<f64>` on a string matched by
`RE_FLT` (sign, integer digits, dot, fraction digits, optional exponent).
IEEE rounding of the decimal is not modelled; the concrete floats used in
theorems below are exactly representable. -/
def parseF64 (s : List Char) : ℚ :=
  let (sgn, s1) := splitSign s
  let d1 := s1.takeWhile Char.isDigit
  let intPart : Nat := d1.foldl (fun acc c => acc * 10 + (c.toNat - '0'.toNat)) 0
  match s1.drop (d1.length + 1) with
  | r2 =>
    let d2 := r2.takeWhile Char.isDigit
    let fracPart : Nat := d2.foldl (fun acc c => acc * 10 + (c.toNat - '0'.toNat)) 0
    let expPart : Int :=
      match matchExp (r2.drop d2.length) with
      | _ :: erest =>
        let (esgn, ed) := splitSign erest
        let eval : Nat := ed.foldl (fun acc c => acc * 10 + (c.toNat - '0'.toNat)) 0
        if esgn = ['-'] then -(eval : Int) else (eval : Int)
      | [] => 0
    let mag : ℚ := ((intPart : ℚ) + (fracPart : ℚ) / (10 : ℚ) ^ d2.length) * (10 : ℚ) ^ expPart
    if sgn = ['-'] then -mag else mag

/-- `TokenValue` from `src/expr.rs`. -/
inductive TokenValue where
  | Literal (p : Primitive)
  | Symbol (s : String)
  | ExprOpen
  | ExprClose
deriving DecidableEq, Repr

/-- `Token` from `src/expr.rs` (field `type_` as in the source). -/
structure Token where
  location : Location
  type_ : TokenValue
deriving DecidableEq, Repr

/-- `Token::error_here`. -/
def Token.error_here (t : Token) (message : EvalErrorMessage) : EvalError :=
  t.location.error_here message

/-- The body of `scan`'s `while offset < text.len()` loop, fuel-indexed so
that it is structurally recursive (every iteration advances `offset` by at
least one, so `text.length + 1` fuel always suffices; running out of fuel
is unreachable and modelled as a panic). Branch order follows the source:
`RE_FLT`, `RE_RDX`, `RE_INT`, `RE_BLN`, `RE_SYM`, then single characters.
The `.expect("Integer parsing failed")` calls and the `panic!("Invalid
radix")` arm become `.panicked`. -/
def scanAux (text : List Char) : Nat → Nat → EResult (List Token)
  | _, 0 => .panicked
  | offset, fuel + 1 =>
    if offset < text.length then
      let s := text.drop offset
      match matchFlt s with
      | some m =>
        (scanAux text (offset + m.length) fuel).map
          (Token.mk (Location.mk text offset m.length) (.Literal (.Float (parseF64 m))) :: ·)
      | none =>
      match matchRdx s with
      | some (whole, rc, digits) =>
        let number := digits.filter (fun c => !(c == '_'))
        let radix : Option Nat :=
          if rc == 'b' then some 2
          else if rc == 'o' then some 8
          else if rc == 'x' then some 16
          else none
        match radix with
        | none => .panicked
        | some r =>
          match fromStrRadix number r with
          | none => .panicked
          | some v =>
            (scanAux text (offset + whole.length) fuel).map
              (Token.mk (Location.mk text offset whole.length) (.Literal (.Integer v)) :: ·)
      | none =>
      match matchInt s with
      | some m =>
        match fromStrRadix m 10 with
        | none => .panicked
        | some v =>
          (scanAux text (offset + m.length) fuel).map
            (Token.mk (Location.mk text offset m.length) (.Literal (.Integer v)) :: ·)
      | none =>
      match matchBln s with
      | some m =>
        (scanAux text (offset + m.length) fuel).map
          (Token.mk (Location.mk text offset m.length)
            (.Literal (.Boolean (m == "true".toList))) :: ·)
      | none =>
      match matchSym s with
      | some m =>
        (scanAux text (offset + m.length) fuel).map
          (Token.mk (Location.mk text offset m.length) (.Symbol (String.mk m)) :: ·)
      | none =>
      match s with
      | [] => .panicked
      | c :: _ =>
        if c.isWhitespace then scanAux text (offset + 1) fuel
        else if c == '(' then
          (scanAux text (offset + 1) fuel).map
            (Token.mk (Location.mk text offset 1) .ExprOpen :: ·)
        else if c == ')' then
          (scanAux text (offset + 1) fuel).map
            (Token.mk (Location.mk text offset 1) .ExprClose :: ·)
        else .err (EvalError.mk (Location.mk text offset 1) (.InvalidChar c))
    else .ok []

/-- `scan` from `src/expr.rs`. -/
def scan (text : List Char) : EResult (List Token) :=
  scanAux text 0 (text.length + 1)

/-! ### Expression tree and parser -/

/-- `Expr`/`ExprValue` from `src/expr.rs`, flattened: the Rust
`Expr { location, value: ExprValue }` pair becomes one inductive whose
constructors mirror `ExprValue::Primitive`, `ExprValue::Symbol`,
`ExprValue::Call`, each carrying the node's `location`. -/
inductive Expr where
  | prim (location : Location) (p : Primitive)
  | symbol (location : Location) (s : String)
  | call (location : Location) (name : String) (args : List Expr)
deriving Repr

/-- The `location` field of an expression node. -/
def Expr.location : Expr → Location
  | .prim l _ => l
  | .symbol l _ => l
  | .call l _ _ => l

/-- `Expr::error_here`. -/
def Expr.error_here (e : Expr) (message : EvalErrorMessage) : EvalError :=
  e.location.error_here message

/-- An entry of `parse_expr`'s flat accumulation buffer:
`(level, expression-so-far, original token index)`. -/
abbrev BufEntry : Type := Nat × Expr × Nat

/-- The `buf_index` computation of `parse_expr` (src/expr.rs lines
301-308): walk the buffer from its end while entries have level
`lvl + 1`; the result is the index of the first entry of that trailing
run (`buffer.len()` when the run is empty). -/
def collapseStart (buffer : List BufEntry) (lvl : Nat) : Nat :=
  buffer.length - (buffer.reverse.takeWhile (fun e => e.1 == lvl + 1)).length

/-- The body of `parse_expr`'s `while index < tokens.len()` loop,
fuel-indexed (the index grows by one per iteration, so
`tokens.length + 1` fuel always suffices; fuel exhaustion is unreachable).
Every Rust `tokens[i]` / `buffer[i]` indexing is modelled with `get?`,
panicking on `none` as Rust does on out of bounds — in particular
`buffer[buf_index]` at line 310, which Rust reaches with an empty buffer
when a bracket group closes without any collapsed item. -/
def parseLoop (tokens : List Token) :
    Nat → Nat → List BufEntry → Nat → EResult Expr
  | _, _, _, 0 => .panicked
  | level, index, buffer, fuel + 1 =>
    match tokens.get? index with
    | none =>
      -- loop finished: `if level > 0 { Err(tokens[0] UnexpectedToken) }`,
      -- else `assert_eq!(buffer.len(), 1)` and return the single entry
      if level > 0 then
        match tokens.get? 0 with
        | some t => .err (t.error_here .UnexpectedToken)
        | none => .panicked
      else
        match buffer with
        | [entry] => .ok entry.2.1
        | _ => .panicked
    | some tok =>
      match tok.type_ with
      | .Literal val =>
        parseLoop tokens level (index + 1)
          (buffer ++ [(level, Expr.prim tok.location val, index)]) fuel
      | .Symbol sym =>
        parseLoop tokens level (index + 1)
          (buffer ++ [(level, Expr.symbol tok.location sym, index)]) fuel
      | .ExprOpen => parseLoop tokens (level + 1) (index + 1) buffer fuel
      | .ExprClose =>
        let lvl := level - 1
        if lvl == 0 && index + 1 < tokens.length then
          match tokens.get? (index + 1) with
          | some t => .err (t.error_here .UnexpectedToken)
          | none => .panicked
        else
          let bi := collapseStart buffer lvl
          match buffer.get? bi with
          | none => .panicked   -- Rust: `buffer[buf_index]` out of bounds
          | some entry =>
            let lastTokIndex := entry.2.2
            match buffer.drop bi with
            | [] =>
              -- the source's EmptyExpression branch; unreachable, since
              -- `buffer.get? bi = some _` forces `buffer.drop bi ≠ []`
              match tokens.get? lastTokIndex with
              | some t => .err (t.error_here .EmptyExpression)
              | none => .panicked
            | first :: restArgs =>
              match first.2.1 with
              | .symbol floc fsym =>
                let args := restArgs.map (fun e => e.2.1)
                parseLoop tokens lvl (index + 1)
                  (buffer.take bi ++ [(lvl, Expr.call floc fsym args, first.2.2)]) fuel
              | _ =>
                match tokens.get? first.2.2 with
                | some t => .err (t.error_here .CallNonSymbol)
                | none => .panicked

/-- `parse_expr` from `src/expr.rs`: the entry `assert!` becomes a panic
branch, then the loop starts at `level = 1`, `index = 1`, empty buffer. -/
def parse_expr (tokens : List Token) : EResult Expr :=
  match tokens with
  | t0 :: _ :: _ =>
    if t0.type_ == TokenValue.ExprOpen then
      parseLoop tokens 1 1 [] (tokens.length + 1)
    else .panicked
  | _ => .panicked

/-- `parse` from `src/expr.rs`. -/
def parse (tokens : List Token) : EResult Expr :=
  match tokens with
  | [] => .err (EvalError.mk (Location.mk [] 0 0) .EmptyExpression)
  | [t] =>
    match t.type_ with
    | .Literal val => .ok (.prim t.location val)
    | .Symbol sym => .ok (.symbol t.location sym)
    | .ExprOpen => .err (t.error_here .UnmatchedOpen)
    | .ExprClose => .err (t.error_here .UnmatchedClose)
  | t0 :: t1 :: _ =>
    match t0.type_ with
    | .Literal _ => .err (t1.error_here .UnexpectedToken)
    | .Symbol _ => .err (t1.error_here .UnexpectedToken)
    | .ExprClose => .err (t0.error_here .UnmatchedClose)
    | .ExprOpen => parse_expr tokens

/-! ### Resolver: the two tree-rewriting passes of `Expr` -/

/-- The native-function type `F` from `src/functions.rs`:
`fn(Location, Vec<Expr>) -> Result<Expr, EvalError>`. -/
abbrev NativeFn : Type := Location → List Expr → EResult Expr

/-- `Functions` from `src/functions.rs` (`HashMap<String, F>`), as an
association list; `Functions::get` is `List.lookup`. -/
abbrev Functions : Type := List (String × NativeFn)

def Functions.get (fns : Functions) (key : String) : Option NativeFn :=
  List.lookup key fns

mutual

/-- `Expr::resolve_all` from `src/expr.rs` (pass 1, symbol substitution):
primitives pass through, symbols are looked up in the `Context`
(`UnknownSymbol` at the leaf's span when absent), calls recurse into their
arguments only — the call's own name is untouched. -/
def Expr.resolve_all : Expr → Context → EResult Expr
  | .prim loc p, _ => .ok (.prim loc p)
  | .symbol loc sym, ctx =>
    match ctx.get sym with
    | some value => .ok (.prim loc value)
    | none => .err (EvalError.mk loc (.UnknownSymbol sym))
  | .call loc sym args, ctx =>
    (Expr.resolveList args ctx).map (fun args2 => .call loc sym args2)

/-- The `args.into_iter().map(resolve_all).collect::<Result<...>>()` of
`Expr::resolve_all`: resolve each argument left to right, stopping at the
first error. -/
def Expr.resolveList : List Expr → Context → EResult (List Expr)
  | [], _ => .ok []
  | e :: rest, ctx =>
    (e.resolve_all ctx).bind fun e2 =>
      (Expr.resolveList rest ctx).map (fun rest2 => e2 :: rest2)

end

mutual

/-- `Expr::call_functions` from `src/expr.rs` (pass 2, function
application): on a call node, first resolve every argument, then look the
name up in the `Functions` table (`UnknownFunction` at the call's span when
absent) and invoke it with the call's span and the evaluated arguments;
any other node passes through. -/
def Expr.call_functions : Expr → Functions → EResult Expr
  | .call loc sym args, fns =>
    (Expr.callList args fns).bind fun args2 =>
      match fns.get sym with
      | some fn => fn loc args2
      | none => .err (EvalError.mk loc (.UnknownFunction sym))
  | e, _ => .ok e

/-- The `args.into_iter().map(call_functions).collect::<Result<...>>()` of
`Expr::call_functions`. -/
def Expr.callList : List Expr → Functions → EResult (List Expr)
  | [], _ => .ok []
  | e :: rest, fns =>
    (e.call_functions fns).bind fun e2 =>
      (Expr.callList rest fns).map (fun rest2 => e2 :: rest2)

end

/-! ### Built-in functions (`src/functions.rs`) -/

/-- The `value!` macro from `src/functions.rs`: extract the primitive of
an argument; a non-primitive argument is `unreachable!` (a panic). -/
def exprPrim : Expr → Option Primitive
  | .prim _ p => some p
  | _ => none

/-- The accumulation loop of `f_and`: `acc = acc.and(&value!(arg))`,
mapping an operation error to the offending argument's span. -/
def andFold : Primitive → List Expr → EResult Primitive
  | acc, [] => .ok acc
  | acc, arg :: rest =>
    match exprPrim arg with
    | none => .panicked
    | some p =>
      match acc.and p with
      | .ok acc2 => andFold acc2 rest
      | .error msg => .err (arg.error_here msg)

/-- The accumulation loop of `f_or`. -/
def orFold : Primitive → List Expr → EResult Primitive
  | acc, [] => .ok acc
  | acc, arg :: rest =>
    match exprPrim arg with
    | none => .panicked
    | some p =>
      match acc.or p with
      | .ok acc2 => orFold acc2 rest
      | .error msg => .err (arg.error_here msg)

/-- The accumulation loop of `f_add` (error at the argument's location). -/
def addFold : Primitive → List Expr → EResult Primitive
  | acc, [] => .ok acc
  | acc, arg :: rest =>
    match exprPrim arg with
    | none => .panicked
    | some p =>
      match acc.add p with
      | .ok acc2 => addFold acc2 rest
      | .error msg => .err (EvalError.mk arg.location msg)

/-- The accumulation loop of `f_mul`. -/
def mulFold : Primitive → List Expr → EResult Primitive
  | acc, [] => .ok acc
  | acc, arg :: rest =>
    match exprPrim arg with
    | none => .panicked
    | some p =>
      match acc.mul p with
      | .ok acc2 => mulFold acc2 rest
      | .error msg => .err (EvalError.mk arg.location msg)

/-- `f_not`: `check_argc_exact!(1)`, then `value!(args[0]).not()` with the
error at the argument's span. -/
def f_not : NativeFn := fun location args =>
  if args.length ≠ 1 then .err (EvalError.mk location .ArgumentCount)
  else
    match args with
    | arg :: _ =>
      (match exprPrim arg with
       | none => .panicked
       | some p =>
         match p.not with
         | .ok acc => .ok (.prim location acc)
         | .error msg => .err (arg.error_here msg))
    | [] => .panicked

/-- `f_and`: `check_argc_min!(1)`, then a left fold of `Primitive::and`
starting from `Boolean(true)`. -/
def f_and : NativeFn := fun location args =>
  if args.length < 1 then .err (EvalError.mk location .ArgumentCount)
  else (andFold (.Boolean true) args).map (fun acc => .prim location acc)

/-- `f_or`: `check_argc_min!(1)`, then a left fold of `Primitive::or`
starting from `Boolean(false)`. -/
def f_or : NativeFn := fun location args =>
  if args.length < 1 then .err (EvalError.mk location .ArgumentCount)
  else (orFold (.Boolean false) args).map (fun acc => .prim location acc)

/-- `f_add`: `check_argc_min!(2)`, accumulator seeded with
`value!(args[0])`, then a left fold of `Primitive::add` over the rest. -/
def f_add : NativeFn := fun location args =>
  if args.length < 2 then .err (EvalError.mk location .ArgumentCount)
  else
    match args with
    | a0 :: rest =>
      (match exprPrim a0 with
       | none => .panicked
       | some acc0 => (addFold acc0 rest).map (fun acc => .prim location acc))
    | [] => .panicked

/-- `f_mul`: `check_argc_min!(2)`, accumulator seeded with
`value!(args[0])`, then a left fold of `Primitive::mul` over the rest. -/
def f_mul : NativeFn := fun location args =>
  if args.length < 2 then .err (EvalError.mk location .ArgumentCount)
  else
    match args with
    | a0 :: rest =>
      (match exprPrim a0 with
       | none => .panicked
       | some acc0 => (mulFold acc0 rest).map (fun acc => .prim location acc))
    | [] => .panicked

/-- The fractional part `f64::fract` (`x - x.trunc()`), exact on `ℚ`. -/
def ratFract (f : ℚ) : ℚ := f - (ratTrunc f : ℚ)

/-- `f_fract`: `check_argc_exact!(1)`, Float argument only. -/
def f_fract : NativeFn := fun location args =>
  if args.length ≠ 1 then .err (EvalError.mk location .ArgumentCount)
  else
    match args with
    | arg :: _ =>
      (match exprPrim arg with
       | none => .panicked
       | some p =>
         match p with
         | .Float f => .ok (.prim location (.Float (ratFract f)))
         | _ =>
           .err (arg.error_here (.InvalidArgument "Only floats have fractional parts")))
    | [] => .panicked

/-- `Functions::default` from `src/functions.rs`: exactly `not`, `and`,
`or`, `add`, `mul`, `fract`. -/
def defaultFunctions : Functions :=
  [("not", f_not), ("and", f_and), ("or", f_or),
   ("add", f_add), ("mul", f_mul), ("fract", f_fract)]

/-! ### Helper predicates used only by the statements below -/

/-- Whether a primitive is a Boolean. -/
def Primitive.isBoolean : Primitive → Bool
  | .Boolean _ => true
  | _ => false

/-- Whether an expression's root is a primitive leaf. -/
def Expr.isPrimRoot : Expr → Bool
  | .prim _ _ => true
  | _ => false

mutual

/-- Whether the name `n` occurs as a symbol leaf anywhere in the tree
(call heads do not count: they are not symbol leaves). -/
def mentionsSym (n : String) : Expr → Bool
  | .prim _ _ => false
  | .symbol _ s => s == n
  | .call _ _ args => mentionsSymList n args

def mentionsSymList (n : String) : List Expr → Bool
  | [] => false
  | e :: rest => mentionsSym n e || mentionsSymList n rest

end

/-- The claim's spec-worded condition for when `Integer i` equals
`Float f`: `f` has no fractional part, lies within the `i128` range, and
exactly represents `i`.  (Stated from the spec's words, for comparison
with the source-derived `int_float_eq`.) -/
def specIntFloatEq (i : Int) (f : ℚ) : Prop :=
  (∃ k : Int, f = (k : ℚ)) ∧ (i128Min : ℚ) ≤ f ∧ f ≤ (i128Max : ℚ) ∧ f = (i : ℚ)

/-! ### The evaluator entry point -/

/-- `evaluate` from `src/expr.rs`: scan, parse, resolve symbols, apply
functions; a non-primitive root afterwards is the source's
`unimplemented!` (a panic). -/
def evaluate (text : List Char) (ctx : Context) (fns : Functions) : EResult Primitive :=
  (scan text).bind fun tokens =>
    (parse tokens).bind fun expr =>
      (expr.resolve_all ctx).bind fun e1 =>
        (e1.call_functions fns).bind fun e2 =>
          match e2 with
          | .prim _ p => .ok p
          | _ => .panicked

/-! ## Theorems about the claims -/

set_option maxRecDepth 40000

/-- C1: the claim states that `mul` of two Floats yields their product.
The code's `Primitive::mul` arm `(Float(a), Float(b)) => Float(a + b)`
adds instead: `(mul 2.0 3.0)` evaluates to `Float(5.0)`, not `Float(6.0)`
(both sums and products of these values are IEEE-exact, so the rational
model coincides with `f64` here). -/
theorem mul_of_two_floats_adds_instead_of_multiplying :
    evaluate "(mul 2.0 3.0)".toList [] defaultFunctions = .ok (.Float 5)
      ∧ (5 : ℚ) ≠ 6 := by
  constructor
  · have h : evaluate "(mul 2.0 3.0)".toList [] defaultFunctions
        = .ok (.Float (parseF64 "2.0".toList + parseF64 "3.0".toList)) := rfl
    have h2 : parseF64 "2.0".toList = 2 := by
      simp +decide [parseF64, matchExp, splitSign, isSign]
    have h3 : parseF64 "3.0".toList = 3 := by
      simp +decide [parseF64, matchExp, splitSign, isSign]
    rw [h, h2, h3]
    norm_num
  · norm_num

/-- C2: `evaluate "("`, `evaluate ")"`, and `evaluate "(1 2)"` fail with
`UnmatchedOpen`, `UnmatchedClose`, and `CallNonSymbol` at the implicated
token, as claimed; but `evaluate "()"` does NOT return an
`EmptyExpression` error — `parse_expr` indexes `buffer[buf_index]` with an
empty buffer (src/expr.rs line 310) before its `EmptyExpression` branch
can fire, so the program panics. -/
theorem evaluate_error_examples_and_empty_group_panic :
    evaluate "(".toList [] defaultFunctions
        = .err ⟨⟨"(".toList, 0, 1⟩, .UnmatchedOpen⟩
      ∧ evaluate ")".toList [] defaultFunctions
        = .err ⟨⟨")".toList, 0, 1⟩, .UnmatchedClose⟩
      ∧ evaluate "(1 2)".toList [] defaultFunctions
        = .err ⟨⟨"(1 2)".toList, 1, 1⟩, .CallNonSymbol⟩
      ∧ evaluate "()".toList [] defaultFunctions = .panicked :=
  ⟨rfl, rfl, rfl, rfl⟩

/-- C3: the scanner does abort on matched literals: a radix-prefixed
literal whose digits are invalid in the detected base (`0b2`), or one
whose value exceeds `i128` (32 hex `f`s), panics through
`.expect("Integer parsing failed")` instead of completing.  An actually
invalid character does produce the claimed single-character-span error. -/
theorem scan_panics_on_bad_radix_digits_and_overflow :
    scan "0b2".toList = .panicked
      ∧ scan "0xffffffffffffffffffffffffffffffff".toList = .panicked
      ∧ scan "#".toList = .err ⟨⟨"#".toList, 0, 1⟩, .InvalidChar '#'⟩ :=
  ⟨rfl, rfl, rfl⟩

/-- C4: a plain decimal integer literal with `_` separators panics: the
`RE_INT` branch passes the matched text, underscores included, straight to
`i128::from_str_radix`, which rejects `_` — so `scan "1_000"` aborts
instead of producing `Integer(1000)` (which the separator-free literal
does produce). -/
theorem decimal_literal_with_separators_panics :
    scan "1_000".toList = .panicked
      ∧ evaluate "1000".toList [] defaultFunctions = .ok (.Integer 1000) :=
  ⟨rfl, rfl⟩

/-- C5: `add` and `mul` on a pair of `i128` Integers return the exact
mathematical sum/product when it lies in the `i128` range and fail with
`Overflow` (at the second operand's span) otherwise — never a wrapped
value. -/
theorem int_add_mul_exact_or_overflow (a b : Int) (l l1 l2 : Location)
    (ha : inI128 a) (hb : inI128 b) :
    (f_add l [.prim l1 (.Integer a), .prim l2 (.Integer b)]
       = if inI128 (a + b) then .ok (.prim l (.Integer (a + b)))
         else .err ⟨l2, .Overflow⟩)
  ∧ (f_mul l [.prim l1 (.Integer a), .prim l2 (.Integer b)]
       = if inI128 (a * b) then .ok (.prim l (.Integer (a * b)))
         else .err ⟨l2, .Overflow⟩) := by
  constructor
  · by_cases h : inI128 (a + b)
    · simp [f_add, addFold, exprPrim, Primitive.add, checkedAdd, h, EResult.map]
    · simp [f_add, addFold, exprPrim, Primitive.add, checkedAdd, h, EResult.map, Expr.location]
  · by_cases h : inI128 (a * b)
    · simp [f_mul, mulFold, exprPrim, Primitive.mul, checkedMul, h, EResult.map]
    · simp [f_mul, mulFold, exprPrim, Primitive.mul, checkedMul, h, EResult.map, Expr.location]

/-- Witness for C5 at `a = b = 2^126`: both operands are valid `i128`
values, and both the sum and the product overflow, yielding the
`Overflow` error. -/
theorem int_add_mul_exact_or_overflow_witness :
    inI128 (2 ^ 126)
  ∧ f_add ⟨[], 0, 0⟩
      [.prim ⟨[], 0, 0⟩ (.Integer (2 ^ 126)), .prim ⟨[], 0, 1⟩ (.Integer (2 ^ 126))]
      = .err ⟨⟨[], 0, 1⟩, .Overflow⟩
  ∧ f_mul ⟨[], 0, 0⟩
      [.prim ⟨[], 0, 0⟩ (.Integer (2 ^ 126)), .prim ⟨[], 0, 1⟩ (.Integer (2 ^ 126))]
      = .err ⟨⟨[], 0, 1⟩, .Overflow⟩ := by
  have h := int_add_mul_exact_or_overflow (2 ^ 126) (2 ^ 126)
    ⟨[], 0, 0⟩ ⟨[], 0, 0⟩ ⟨[], 0, 1⟩ (by decide) (by decide)
  refine ⟨by decide, ?_, ?_⟩
  · rw [h.1, if_neg (by decide)]
  · rw [h.2, if_neg (by decide)]

/-- `andFold` over Boolean leaves is the left fold of `&&`. -/
theorem andFold_booleans (c : Bool) (bs : List (Location × Bool)) :
    andFold (.Boolean c) (bs.map fun lb => Expr.prim lb.1 (.Boolean lb.2))
      = .ok (.Boolean (bs.foldl (fun acc lb => acc && lb.2) c)) := by
  induction bs generalizing c with
  | nil => rfl
  | cons hd tl ih => simp [andFold, exprPrim, Primitive.and, ih]

/-- `orFold` over Boolean leaves is the left fold of `||`. -/
theorem orFold_booleans (c : Bool) (bs : List (Location × Bool)) :
    orFold (.Boolean c) (bs.map fun lb => Expr.prim lb.1 (.Boolean lb.2))
      = .ok (.Boolean (bs.foldl (fun acc lb => acc || lb.2) c)) := by
  induction bs generalizing c with
  | nil => rfl
  | cons hd tl ih => simp [orFold, exprPrim, Primitive.or, ih]

/-- `andFold` stops with `InvalidArgument` at the first non-Boolean
operand's span. -/
theorem andFold_first_nonbool (c : Bool) (bs : List (Location × Bool))
    (l : Location) (p : Primitive) (rest : List Expr) (hp : p.isBoolean = false) :
    ∃ m, andFold (.Boolean c) ((bs.map fun lb => Expr.prim lb.1 (.Boolean lb.2))
            ++ Expr.prim l p :: rest)
      = .err ⟨l, .InvalidArgument m⟩ := by
  induction bs generalizing c with
  | nil =>
    cases p <;>
      simp_all [andFold, exprPrim, Primitive.and, Primitive.isBoolean,
        Expr.error_here, Expr.location, Location.error_here]
  | cons hd tl ih =>
    simpa [andFold, exprPrim, Primitive.and] using ih (c && hd.2)

/-- `orFold` stops with `InvalidArgument` at the first non-Boolean
operand's span. -/
theorem orFold_first_nonbool (c : Bool) (bs : List (Location × Bool))
    (l : Location) (p : Primitive) (rest : List Expr) (hp : p.isBoolean = false) :
    ∃ m, orFold (.Boolean c) ((bs.map fun lb => Expr.prim lb.1 (.Boolean lb.2))
            ++ Expr.prim l p :: rest)
      = .err ⟨l, .InvalidArgument m⟩ := by
  induction bs generalizing c with
  | nil =>
    cases p <;>
      simp_all [orFold, exprPrim, Primitive.or, Primitive.isBoolean,
        Expr.error_here, Expr.location, Location.error_here]
  | cons hd tl ih =>
    simpa [orFold, exprPrim, Primitive.or] using ih (c || hd.2)

/-- C7: `and`/`or` with no arguments fail with `ArgumentCount` at the
call's span; over one or more all-Boolean arguments they are the left
folds of `&&`/`||` with identities `true`/`false`; a non-Boolean operand
fails with `InvalidArgument` at the (first) offending operand's span; and
`not` fails with `ArgumentCount` for any argument count other than one. -/
theorem and_or_not_builtin_semantics (loc : Location) :
    (f_and loc [] = .err ⟨loc, .ArgumentCount⟩)
  ∧ (f_or loc [] = .err ⟨loc, .ArgumentCount⟩)
  ∧ (∀ bs : List (Location × Bool), bs ≠ [] →
       f_and loc (bs.map fun lb => Expr.prim lb.1 (.Boolean lb.2))
         = .ok (.prim loc (.Boolean (bs.foldl (fun acc lb => acc && lb.2) true))))
  ∧ (∀ bs : List (Location × Bool), bs ≠ [] →
       f_or loc (bs.map fun lb => Expr.prim lb.1 (.Boolean lb.2))
         = .ok (.prim loc (.Boolean (bs.foldl (fun acc lb => acc || lb.2) false))))
  ∧ (∀ (bs : List (Location × Bool)) (l : Location) (p : Primitive) (rest : List Expr),
       p.isBoolean = false →
       ∃ m, f_and loc ((bs.map fun lb => Expr.prim lb.1 (.Boolean lb.2))
              ++ Expr.prim l p :: rest) = .err ⟨l, .InvalidArgument m⟩)
  ∧ (∀ (bs : List (Location × Bool)) (l : Location) (p : Primitive) (rest : List Expr),
       p.isBoolean = false →
       ∃ m, f_or loc ((bs.map fun lb => Expr.prim lb.1 (.Boolean lb.2))
              ++ Expr.prim l p :: rest) = .err ⟨l, .InvalidArgument m⟩)
  ∧ (∀ args : List Expr, args.length ≠ 1 → f_not loc args = .err ⟨loc, .ArgumentCount⟩) := by
  refine ⟨rfl, rfl, ?_, ?_, ?_, ?_, ?_⟩
  · intro bs hbs
    have hlen : ¬ (bs.map fun lb => Expr.prim lb.1 (.Boolean lb.2)).length < 1 := by
      simp [Nat.lt_one_iff]
      exact hbs
    simp only [f_and, if_neg hlen, andFold_booleans, EResult.map]
  · intro bs hbs
    have hlen : ¬ (bs.map fun lb => Expr.prim lb.1 (.Boolean lb.2)).length < 1 := by
      simp [Nat.lt_one_iff]
      exact hbs
    simp only [f_or, if_neg hlen, orFold_booleans, EResult.map]
  · intro bs l p rest hp
    obtain ⟨m, hm⟩ := andFold_first_nonbool true bs l p rest hp
    refine ⟨m, ?_⟩
    have hlen : ¬ ((bs.map fun lb => Expr.prim lb.1 (.Boolean lb.2))
        ++ Expr.prim l p :: rest).length < 1 := by
      simp
    simp only [f_and, if_neg hlen, hm, EResult.map]
  · intro bs l p rest hp
    obtain ⟨m, hm⟩ := orFold_first_nonbool false bs l p rest hp
    refine ⟨m, ?_⟩
    have hlen : ¬ ((bs.map fun lb => Expr.prim lb.1 (.Boolean lb.2))
        ++ Expr.prim l p :: rest).length < 1 := by
      simp
    simp only [f_or, if_neg hlen, hm, EResult.map]
  · intro args h
    simp only [f_not, if_pos h]


/-- `mentionsSymList` is the conjunction of `mentionsSym` over the list. -/
theorem mentionsSymList_eq_false_iff (n : String) (es : List Expr) :
    mentionsSymList n es = false ↔ ∀ a ∈ es, mentionsSym n a = false := by
  induction es with
  | nil => simp [mentionsSymList]
  | cons e rest ih => simp [mentionsSymList, ih]

mutual

/-- Inserting a binding whose name appears at no symbol leaf of `e` does
not change symbol substitution on `e` (call heads are never looked up). -/
theorem resolve_insert_irrel (n : String) (v : Primitive) (ctx : Context) :
    ∀ e : Expr, mentionsSym n e = false →
      Expr.resolve_all e ((n, v) :: ctx) = Expr.resolve_all e ctx
  | .prim _ _, _ => rfl
  | .symbol loc s, h => by
    simp only [mentionsSym] at h
    simp [Expr.resolve_all, Context.get, List.lookup, h]
  | .call loc f args, h => by
    simp only [mentionsSym] at h
    simp only [Expr.resolve_all, resolveList_insert_irrel n v ctx args h]

theorem resolveList_insert_irrel (n : String) (v : Primitive) (ctx : Context) :
    ∀ es : List Expr, mentionsSymList n es = false →
      Expr.resolveList es ((n, v) :: ctx) = Expr.resolveList es ctx
  | [], _ => rfl
  | e :: rest, h => by
    simp only [mentionsSymList, Bool.or_eq_false_iff] at h
    simp only [Expr.resolveList, resolve_insert_irrel n v ctx e h.1,
      resolveList_insert_irrel n v ctx rest h.2]

end

/-- C8: symbol substitution replaces symbol leaves by their `Context`
binding (`UnknownSymbol` at the leaf's span when absent), leaves
primitive leaves unchanged, recurses only into a call's arguments keeping
the head name untouched, and — since the head is never looked up — a
`Context` binding named like the call's function does not change the
result when the arguments do not use that name as a symbol. -/
theorem symbol_substitution_pass (ctx : Context) (loc : Location) (p v : Primitive)
    (s f : String) (args : List Expr) :
    (Expr.resolve_all (.prim loc p) ctx = .ok (.prim loc p))
  ∧ (ctx.get s = some v → Expr.resolve_all (.symbol loc s) ctx = .ok (.prim loc v))
  ∧ (ctx.get s = none → Expr.resolve_all (.symbol loc s) ctx
       = .err (EvalError.mk loc (.UnknownSymbol s)))
  ∧ (Expr.resolve_all (.call loc f args) ctx
       = (Expr.resolveList args ctx).map (fun as => .call loc f as))
  ∧ ((∀ a ∈ args, mentionsSym f a = false) →
       Expr.resolve_all (.call loc f args) ((f, v) :: ctx)
         = Expr.resolve_all (.call loc f args) ctx) := by
  refine ⟨rfl, ?_, ?_, rfl, ?_⟩
  · intro h; simp [Expr.resolve_all, h]
  · intro h; simp [Expr.resolve_all, h]
  · intro h
    exact resolve_insert_irrel f v ctx (.call loc f args)
      (by simpa [mentionsSym, mentionsSymList_eq_false_iff] using h)

/-- A successful `f_not` call returns a primitive leaf at the call's span. -/
theorem f_not_ok_prim (loc : Location) (args : List Expr) (e : Expr)
    (h : f_not loc args = .ok e) : ∃ q, e = .prim loc q := by
  unfold f_not at h
  repeat' split at h
  all_goals simp_all
  all_goals exact ⟨_, h.symm⟩

/-- A successful `f_and` call returns a primitive leaf at the call's span. -/
theorem f_and_ok_prim (loc : Location) (args : List Expr) (e : Expr)
    (h : f_and loc args = .ok e) : ∃ q, e = .prim loc q := by
  unfold f_and EResult.map at h
  repeat' split at h
  all_goals simp_all
  all_goals exact ⟨_, h.symm⟩

/-- A successful `f_or` call returns a primitive leaf at the call's span. -/
theorem f_or_ok_prim (loc : Location) (args : List Expr) (e : Expr)
    (h : f_or loc args = .ok e) : ∃ q, e = .prim loc q := by
  unfold f_or EResult.map at h
  repeat' split at h
  all_goals simp_all
  all_goals exact ⟨_, h.symm⟩

/-- A successful `f_add` call returns a primitive leaf at the call's span. -/
theorem f_add_ok_prim (loc : Location) (args : List Expr) (e : Expr)
    (h : f_add loc args = .ok e) : ∃ q, e = .prim loc q := by
  unfold f_add EResult.map at h
  repeat' split at h
  all_goals simp_all
  all_goals exact ⟨_, h.symm⟩

/-- A successful `f_mul` call returns a primitive leaf at the call's span. -/
theorem f_mul_ok_prim (loc : Location) (args : List Expr) (e : Expr)
    (h : f_mul loc args = .ok e) : ∃ q, e = .prim loc q := by
  unfold f_mul EResult.map at h
  repeat' split at h
  all_goals simp_all
  all_goals exact ⟨_, h.symm⟩

/-- A successful `f_fract` call returns a primitive leaf at the call's span. -/
theorem f_fract_ok_prim (loc : Location) (args : List Expr) (e : Expr)
    (h : f_fract loc args = .ok e) : ∃ q, e = .prim loc q := by
  unfold f_fract at h
  repeat' split at h
  all_goals simp_all
  all_goals exact ⟨_, h.symm⟩

/-- The default table maps every name it knows to one of the six
built-ins. -/
theorem defaultFunctions_get (name : String) (fn : NativeFn)
    (h : Functions.get defaultFunctions name = some fn) :
    fn = f_not ∨ fn = f_and ∨ fn = f_or ∨ fn = f_add ∨ fn = f_mul ∨ fn = f_fract := by
  simp [Functions.get, defaultFunctions, List.lookup] at h
  repeat' split at h
  all_goals simp_all

/-- Successful symbol substitution never leaves a symbol at the root. -/
theorem resolve_ok_root_not_symbol (e : Expr) (ctx : Context) (e1 : Expr)
    (h : Expr.resolve_all e ctx = .ok e1) :
    (∃ l p, e1 = .prim l p) ∨ (∃ l n args, e1 = .call l n args) := by
  cases e with
  | prim l p => left; exact ⟨l, p, by cases h; rfl⟩
  | symbol l s =>
    unfold Expr.resolve_all at h
    split at h
    · cases h; exact .inl ⟨_, _, rfl⟩
    · cases h
  | call l n args =>
    unfold Expr.resolve_all EResult.map at h
    split at h
    · cases h; exact .inr ⟨_, _, _, rfl⟩
    all_goals cases h

/-- C9: when scanning, parsing, symbol substitution and function
application all succeed under the default function table, the resulting
root is a primitive leaf and `evaluate` returns that primitive — the
`unimplemented!` branch for a non-primitive root is unreachable on
successful runs. -/
theorem eval_pipeline_success_root_is_primitive (text : List Char) (ctx : Context)
    (tokens : List Token) (e e1 e2 : Expr)
    (hscan : scan text = .ok tokens) (hparse : parse tokens = .ok e)
    (hres : Expr.resolve_all e ctx = .ok e1)
    (hcall : Expr.call_functions e1 defaultFunctions = .ok e2) :
    ∃ l p, e2 = .prim l p ∧ evaluate text ctx defaultFunctions = .ok p := by
  have hroot : ∃ l p, e2 = .prim l p := by
    rcases resolve_ok_root_not_symbol e ctx e1 hres with ⟨l, p, rfl⟩ | ⟨l, n, args, rfl⟩
    · simp [Expr.call_functions] at hcall
      exact ⟨l, p, hcall.symm⟩
    · unfold Expr.call_functions EResult.bind at hcall
      split at hcall
      · split at hcall
        · rename_i args2 heq fn hget
          rcases defaultFunctions_get n fn hget with rfl | rfl | rfl | rfl | rfl | rfl
          · obtain ⟨q, hq⟩ := f_not_ok_prim l _ e2 hcall
            exact ⟨l, q, hq⟩
          · obtain ⟨q, hq⟩ := f_and_ok_prim l _ e2 hcall
            exact ⟨l, q, hq⟩
          · obtain ⟨q, hq⟩ := f_or_ok_prim l _ e2 hcall
            exact ⟨l, q, hq⟩
          · obtain ⟨q, hq⟩ := f_add_ok_prim l _ e2 hcall
            exact ⟨l, q, hq⟩
          · obtain ⟨q, hq⟩ := f_mul_ok_prim l _ e2 hcall
            exact ⟨l, q, hq⟩
          · obtain ⟨q, hq⟩ := f_fract_ok_prim l _ e2 hcall
            exact ⟨l, q, hq⟩
        · cases hcall
      all_goals cases hcall
  obtain ⟨l, p, rfl⟩ := hroot
  refine ⟨l, p, rfl, ?_⟩
  unfold evaluate
  rw [hscan]
  simp [EResult.bind, hparse, hres, hcall]

/-- Witness for C9 at the input `(add 1 2)` with an empty context: every
stage succeeds and `evaluate` returns `Integer(3)` from the primitive
root. -/
theorem eval_pipeline_success_root_is_primitive_witness :
    ∃ l p,
      (Expr.prim ⟨"(add 1 2)".toList, 1, 3⟩ (.Integer 3) : Expr) = .prim l p
      ∧ evaluate "(add 1 2)".toList [] defaultFunctions = .ok p :=
  eval_pipeline_success_root_is_primitive "(add 1 2)".toList []
    [⟨⟨"(add 1 2)".toList, 0, 1⟩, .ExprOpen⟩,
     ⟨⟨"(add 1 2)".toList, 1, 3⟩, .Symbol "add"⟩,
     ⟨⟨"(add 1 2)".toList, 5, 1⟩, .Literal (.Integer 1)⟩,
     ⟨⟨"(add 1 2)".toList, 7, 1⟩, .Literal (.Integer 2)⟩,
     ⟨⟨"(add 1 2)".toList, 8, 1⟩, .ExprClose⟩]
    (.call ⟨"(add 1 2)".toList, 1, 3⟩ "add"
      [.prim ⟨"(add 1 2)".toList, 5, 1⟩ (.Integer 1),
       .prim ⟨"(add 1 2)".toList, 7, 1⟩ (.Integer 2)])
    (.call ⟨"(add 1 2)".toList, 1, 3⟩ "add"
      [.prim ⟨"(add 1 2)".toList, 5, 1⟩ (.Integer 1),
       .prim ⟨"(add 1 2)".toList, 7, 1⟩ (.Integer 2)])
    (.prim ⟨"(add 1 2)".toList, 1, 3⟩ (.Integer 3))
    rfl rfl rfl rfl

/-- `f64::trunc` of an integer-valued float is that integer. -/
theorem ratTrunc_intCast (k : Int) : ratTrunc (k : ℚ) = k := by
  unfold ratTrunc
  split
  · exact Int.floor_intCast k
  · exact Int.ceil_intCast k

/-- The saturating cast `f as i128` on an integer-valued float clamps to
the `i128` range. -/
theorem f64AsI128_intCast (k : Int) :
    f64AsI128 (k : ℚ) =
      if k < i128Min then i128Min else if i128Max < k then i128Max else k := by
  unfold f64AsI128
  by_cases h1 : k < i128Min
  · rw [if_pos (by exact_mod_cast h1), if_pos h1]
  · rw [if_neg (by exact_mod_cast h1), if_neg h1]
    by_cases h2 : i128Max < k
    · rw [if_pos (by exact_mod_cast h2), if_pos h2]
    · rw [if_neg (by exact_mod_cast h2), if_neg h2, ratTrunc_intCast]

/-- Full characterization of `int_float_eq`: the float must be an integer
`k`, and either `k` is in the `i128` range and equals `i`, or — because
the upper range check uses the rounded cast `i128::MAX as f64 = 2^127`
and the float-to-int cast saturates — `k = 2^127` and `i = i128::MAX`. -/
theorem int_float_eq_true_iff (i : Int) (f : ℚ) :
    int_float_eq i f = true ↔
      ∃ k : Int, f = (k : ℚ) ∧
        ((i128Min ≤ k ∧ k ≤ i128Max ∧ k = i) ∨ (k = 2 ^ 127 ∧ i = i128Max)) := by
  have hminCast : ((i128Min : Int) : ℚ) = i128MinAsF64 := by
    simp [i128Min, i128MinAsF64]
    norm_num
  have hmaxCast : (((2 : Int) ^ 127 : Int) : ℚ) = i128MaxAsF64 := by
    simp [i128MaxAsF64]
    norm_num
  unfold int_float_eq
  constructor
  · intro h
    split at h
    case isFalse => simp at h
    case isTrue htr =>
      split at h
      case isFalse => simp at h
      case isTrue hbnd =>
        obtain ⟨hlo, hhi⟩ := hbnd
        have hcast : f = ((ratTrunc f : Int) : ℚ) := htr.symm
        set k := ratTrunc f with hkdef
        refine ⟨k, hcast, ?_⟩
        have heq : f64AsI128 f = i := by simpa using h
        rw [hcast] at heq hlo hhi
        rw [f64AsI128_intCast] at heq
        have hlo2 : i128Min ≤ k := by rw [← hminCast] at hlo; exact_mod_cast hlo
        have hhi2 : k ≤ (2 : Int) ^ 127 := by rw [← hmaxCast] at hhi; exact_mod_cast hhi
        rw [if_neg (not_lt.mpr hlo2)] at heq
        by_cases hmax : i128Max < k
        · right
          rw [if_pos hmax] at heq
          have hk : k = 2 ^ 127 := by
            norm_num [i128Max] at hmax hhi2 ⊢
            omega
          exact ⟨hk, heq.symm⟩
        · left
          push_neg at hmax
          rw [if_neg (not_lt.mpr hmax)] at heq
          exact ⟨hlo2, hmax, heq⟩
  · rintro ⟨k, rfl, hcase⟩
    rw [if_pos (by rw [ratTrunc_intCast]), if_pos, show (f64AsI128 ((k : Int) : ℚ) == i)
        = decide (f64AsI128 ((k : Int) : ℚ) = i) from rfl, decide_eq_true_eq,
      f64AsI128_intCast]
    · rcases hcase with ⟨hlo, hhi, rfl⟩ | ⟨rfl, rfl⟩
      · rw [if_neg (not_lt.mpr hlo), if_neg (not_lt.mpr hhi)]
      · rw [if_neg, if_pos]
        · norm_num [i128Max]
        · norm_num [i128Min]
    · constructor
      · rw [← hminCast]
        rcases hcase with ⟨hlo, hhi, rfl⟩ | ⟨rfl, rfl⟩
        · exact_mod_cast hlo
        · norm_num [i128Min]
      · rw [← hmaxCast]
        rcases hcase with ⟨hlo, hhi, rfl⟩ | ⟨rfl, rfl⟩
        · have : k ≤ (2 : Int) ^ 127 := by norm_num [i128Max] at hhi ⊢; omega
          exact_mod_cast this
        · norm_num

/-- C6 (amended): primitive equality is symmetric, same-kind values
compare by value, Boolean never equals another kind, and `Integer i`
equals `Float f` exactly when `f` is a mathematical integer `k` with
either `k` in the `i128` range and `k = i`, or `k = 2^127` and
`i = i128::MAX` (the saturation anomaly of the range check). -/
theorem primEq_characterization (i i2 : Int) (f f2 : ℚ) (b b2 : Bool) (p q : Primitive) :
    (primEq p q = primEq q p)
  ∧ (primEq (.Boolean b) (.Boolean b2) = (b == b2))
  ∧ (primEq (.Integer i) (.Integer i2) = (i == i2))
  ∧ (primEq (.Float f) (.Float f2) = (f == f2))
  ∧ (primEq (.Boolean b) (.Integer i) = false)
  ∧ (primEq (.Boolean b) (.Float f) = false)
  ∧ (primEq (.Integer i) (.Boolean b) = false)
  ∧ (primEq (.Float f) (.Boolean b) = false)
  ∧ (primEq (.Integer i) (.Float f) = true ↔
       ∃ k : Int, f = (k : ℚ) ∧
         ((i128Min ≤ k ∧ k ≤ i128Max ∧ k = i) ∨ (k = 2 ^ 127 ∧ i = i128Max))) := by
  refine ⟨?_, rfl, rfl, rfl, rfl, rfl, rfl, rfl, int_float_eq_true_iff i f⟩
  cases p <;> cases q <;> simp [primEq, eq_comm]

/-- Counterexample to C6 as stated: `Integer(i128::MAX)` compares equal
to `Float(2^127)`, yet `2^127` is outside the `i128` range and does not
represent `i128::MAX` — the range check uses the rounded
`i128::MAX as f64 = 2^127` and the cast saturates. -/
theorem primEq_saturation_counterexample :
    primEq (.Integer i128Max) (.Float ((2 : ℚ) ^ 127)) = true
  ∧ ¬ specIntFloatEq i128Max ((2 : ℚ) ^ 127) := by
  constructor
  · show int_float_eq i128Max ((2 : ℚ) ^ 127) = true
    rw [int_float_eq_true_iff]
    exact ⟨2 ^ 127, by push_cast; ring, Or.inr ⟨rfl, rfl⟩⟩
  · rintro ⟨-, -, hhi, -⟩
    rw [show ((i128Max : Int) : ℚ) = 2 ^ 127 - 1 by norm_num [i128Max]] at hhi
    linarith

/-- A character that is no sign and no digit cannot start `RE_FLT`. -/
theorem matchFlt_nondigit (c : Char) (xs : List Char)
    (h1 : isSign c = false) (h2 : c.isDigit = false) : matchFlt (c :: xs) = none := by
  simp [matchFlt, splitSign, h1, h2]

/-- A character that is no sign, digit or underscore cannot start `RE_INT`. -/
theorem matchInt_nondigit (c : Char) (xs : List Char)
    (h1 : isSign c = false) (h2 : c.isDigit = false) (h3 : (c == '_') = false) :
    matchInt (c :: xs) = none := by
  simp [matchInt, splitSign, h1, h2, h3, stripTrailingUnderscores]

/-- A radix literal must start with `0`. -/
theorem matchRdx_not_zero (c : Char) (xs : List Char) (h : (c == '0') = false) :
    matchRdx (c :: xs) = none := by
  simp [matchRdx, h]

/-- C10 (amended): for an identifier extending `true`/`false` with further
identifier characters, the scanner always emits a Boolean literal token
for the prefix — never a single symbol token for the whole identifier —
and tokenizes the remainder separately, starting right after the prefix
(the scan result is the Boolean token consed onto the scan continuing at
offset 4 resp. 5).  No shape is claimed for the remainder's own tokens:
they need not include a symbol token (see the `"true1"` counterexample). -/
theorem bool_prefix_tokenizes_separately (rest : List Char)
    (hne : rest ≠ []) (hcont : isIdentCont (rest.headD ' ') = true) :
    (scan ("true".toList ++ rest)
       = (scanAux ("true".toList ++ rest) 4 (("true".toList ++ rest).length)).map
           (Token.mk ⟨"true".toList ++ rest, 0, 4⟩ (.Literal (.Boolean true)) :: ·))
  ∧ (scan ("false".toList ++ rest)
       = (scanAux ("false".toList ++ rest) 5 (("false".toList ++ rest).length)).map
           (Token.mk ⟨"false".toList ++ rest, 0, 5⟩ (.Literal (.Boolean false)) :: ·)) := by
  constructor
  · rw [scan]
    conv_lhs => rw [scanAux]
    rw [if_pos (by simp)]
    simp only []
    rw [show ("true".toList ++ rest).drop 0 = 't' :: 'r' :: 'u' :: 'e' :: rest by simp]
    rw [matchFlt_nondigit 't' _ (by decide) (by decide)]
    rw [matchRdx_not_zero 't' _ (by decide)]
    rw [matchInt_nondigit 't' _ (by decide) (by decide) (by decide)]
    rw [show matchBln ('t' :: 'r' :: 'u' :: 'e' :: rest) = some "true".toList by
      simp [matchBln, List.isPrefixOf]]
    simp
  · rw [scan]
    conv_lhs => rw [scanAux]
    rw [if_pos (by simp)]
    simp only []
    rw [show ("false".toList ++ rest).drop 0 = 'f' :: 'a' :: 'l' :: 's' :: 'e' :: rest by simp]
    rw [matchFlt_nondigit 'f' _ (by decide) (by decide)]
    rw [matchRdx_not_zero 'f' _ (by decide)]
    rw [matchInt_nondigit 'f' _ (by decide) (by decide) (by decide)]
    rw [show matchBln ('f' :: 'a' :: 'l' :: 's' :: 'e' :: rest) = some "false".toList by
      simp [matchBln, List.isPrefixOf]]
    simp

/-- Witness for C10 (amended) at the remainder `"x"`: both `"truex"` and
`"falsex"` are tokenized as a Boolean literal followed by the scan of the
remainder. -/
theorem bool_prefix_tokenizes_separately_witness :
    (scan ("true".toList ++ ['x'])
       = (scanAux ("true".toList ++ ['x']) 4 (("true".toList ++ ['x']).length)).map
           (Token.mk ⟨"true".toList ++ ['x'], 0, 4⟩ (.Literal (.Boolean true)) :: ·))
  ∧ (scan ("false".toList ++ ['x'])
       = (scanAux ("false".toList ++ ['x']) 5 (("false".toList ++ ['x']).length)).map
           (Token.mk ⟨"false".toList ++ ['x'], 0, 5⟩ (.Literal (.Boolean false)) :: ·)) :=
  bool_prefix_tokenizes_separately ['x'] (by decide) (by decide)

/-- Counterexample to C10 as stated: for `"true1"` the remainder is
tokenized as the Integer literal `1`, not as a symbol token. -/
theorem scan_true_digit_counterexample :
    scan "true1".toList
      = .ok [⟨⟨"true1".toList, 0, 4⟩, .Literal (.Boolean true)⟩,
             ⟨⟨"true1".toList, 4, 1⟩, .Literal (.Integer 1)⟩]
  ∧ ¬ ∃ loc name rest, scan "true1".toList
      = .ok (Token.mk ⟨"true1".toList, 0, 4⟩ (.Literal (.Boolean true))
              :: Token.mk loc (.Symbol name) :: rest) := by
  refine ⟨rfl, ?_⟩
  rintro ⟨loc, name, rest, h⟩
  rw [show scan "true1".toList
      = .ok [⟨⟨"true1".toList, 0, 4⟩, .Literal (.Boolean true)⟩,
             ⟨⟨"true1".toList, 4, 1⟩, .Literal (.Integer 1)⟩] from rfl] at h
  simp at h

end ConstCodegen
